import Mathlib

/-!
Shallow embedding of the ATM account-ledger and cash-pool engine from
src/atm.py (repository mlandeo01/ATM-Project).

Modelling choices, faithful to the source:
- Python integers become Lean Int (amounts may be negative user input).
- The sqlite accounts table becomes an association list keyed by account
  number; each row carries name, card number, PIN, balance, blocked flag
  and failed-attempt counter.
- The atm singleton row becomes a single pool field; the transactions
  table becomes an append-only list (chronological order, newest last).
- ATM.current_account (the in-memory Account handle) becomes an optional
  Session carrying the cached account number, PIN and balance exactly as
  Account.__init__ copies them from the fetched row. The engine methods
  read this cache, not the stored balance, as the Python code does.
- Each engine method returns the successor state together with an
  Except value: an error mirrors a validation failure message followed
  by return (no mutation), and a success carries the value the method
  reports (the new balance, or the new pool total for load_cash).
- Python list indexing in fast_cash, including negative indices and the
  IndexError branch, is embedded by pyGet.
-/

namespace ATMProject

/-- Constant ATM_CASH_LIMIT from atm.py line 10. -/
def ATM_CASH_LIMIT : Int := 200000

/-- Constant DAILY_WITHDRAWAL_LIMIT from atm.py line 11. -/
def DAILY_WITHDRAWAL_LIMIT : Int := 50000

/-- Constant FAST_CASH_OPTIONS from atm.py line 12. -/
def FAST_CASH_OPTIONS : List Int := [500, 1000, 5000]

/-- One row of the accounts table: name, card_no, pin, balance, blocked,
failed_attempts (account_no is the key of the association list). -/
structure AccountRec where
  name : String
  card_no : String
  pin : String
  balance : Int
  blocked : Bool
  failed_attempts : Int
  deriving DecidableEq, Repr

/-- One row of the transactions table (timestamps are not modelled). -/
structure LedgerEntry where
  account_no : String
  kind : String
  amount : Int
  details : String
  deriving DecidableEq, Repr

/-- The in-memory Account handle held in ATM.current_account: the fields
of the row it was built from that the engine methods actually read. -/
structure Session where
  account_no : String
  pin : String
  balance : Int
  deriving DecidableEq, Repr

/-- The persistent database plus the in-memory session. -/
structure ATMState where
  accounts : List (String × AccountRec)
  pool : Int
  ledger : List LedgerEntry
  current : Option Session
  deriving DecidableEq, Repr

/-- Validation failures reported by the engine (spec section 7 taxonomy). -/
inductive Err where
  | noSession
  | invalidAmount
  | insufficientFunds
  | limitExceeded
  | poolExhausted
  | poolCapacityExceeded
  | targetNotFound
  | invalidOption
  | authenticationFailed
  | pinMismatch
  deriving DecidableEq, Repr

/-- Database.get_account_by_no: first row with the given account number. -/
def findAcc : List (String × AccountRec) → String → Option AccountRec
  | [], _ => none
  | (k, a) :: rest, k' => if k = k' then some a else findAcc rest k'

/-- Database.get_account_by_card: first row with the given card number. -/
def findByCard : List (String × AccountRec) → String → Option (String × AccountRec)
  | [], _ => none
  | (k, a) :: rest, c => if a.card_no = c then some (k, a) else findByCard rest c

/-- Database.update_account restricted to one key: rewrite the rows whose
key matches, leave the rest alone. -/
def updAcc : List (String × AccountRec) → String → (AccountRec → AccountRec) →
    List (String × AccountRec)
  | [], _, _ => []
  | (k', a) :: rest, k, f =>
    if k' = k then (k', f a) :: updAcc rest k f else (k', a) :: updAcc rest k f

/-- Database.update_balance. -/
def setBalance (accs : List (String × AccountRec)) (k : String) (b : Int) :
    List (String × AccountRec) :=
  updAcc accs k (fun a => { a with balance := b })

/-- Database.update_account with a failed_attempts keyword. -/
def setAttempts (accs : List (String × AccountRec)) (k : String) (n : Int) :
    List (String × AccountRec) :=
  updAcc accs k (fun a => { a with failed_attempts := n })

/-- Database.update_account with blocked=1. -/
def setBlocked (accs : List (String × AccountRec)) (k : String) :
    List (String × AccountRec) :=
  updAcc accs k (fun a => { a with blocked := true })

/-- Database.update_account with a pin keyword. -/
def setPin (accs : List (String × AccountRec)) (k : String) (p : String) :
    List (String × AccountRec) :=
  updAcc accs k (fun a => { a with pin := p })

/-- Python list subscription l[i] on an Int index: nonnegative indices
count from the front, negative indices count from the back, and anything
out of range raises IndexError, modelled as none. -/
def pyGet (l : List Int) (i : Int) : Option Int :=
  if 0 ≤ i then l.get? i.toNat
  else if 0 ≤ (l.length : Int) + i then l.get? ((l.length : Int) + i).toNat
  else none

/-- ATM.withdraw_cash (atm.py lines 249-278) after a successful integer
parse of the amount: the four validations in source order, then the
atomic debit of balance and pool plus the Withdraw ledger entry. -/
def withdraw_cash (s : ATMState) (amount : Int) : ATMState × Except Err Int :=
  match s.current with
  | none => (s, .error .noSession)
  | some sess =>
    if amount ≤ 0 then (s, .error .invalidAmount)
    else if sess.balance < amount then (s, .error .insufficientFunds)
    else if DAILY_WITHDRAWAL_LIMIT < amount then (s, .error .limitExceeded)
    else if s.pool < amount then (s, .error .poolExhausted)
    else
      let nb := sess.balance - amount
      ({ accounts := setBalance s.accounts sess.account_no nb
         pool := s.pool - amount
         ledger := s.ledger ++ [⟨sess.account_no, "Withdraw", amount, ""⟩]
         current := some { sess with balance := nb } }, .ok nb)

/-- ATM.deposit_cash (atm.py lines 280-303) after a successful integer
parse: positivity check, capacity check, then the atomic credit. -/
def deposit_cash (s : ATMState) (amount : Int) : ATMState × Except Err Int :=
  match s.current with
  | none => (s, .error .noSession)
  | some sess =>
    if amount ≤ 0 then (s, .error .invalidAmount)
    else if ATM_CASH_LIMIT < s.pool + amount then (s, .error .poolCapacityExceeded)
    else
      let nb := sess.balance + amount
      ({ accounts := setBalance s.accounts sess.account_no nb
         pool := s.pool + amount
         ledger := s.ledger ++ [⟨sess.account_no, "Deposit", amount, ""⟩]
         current := some { sess with balance := nb } }, .ok nb)

/-- ATM.transfer_funds (atm.py lines 305-335): the target row is fetched
before any update, the source balance is written first from the cached
session balance, then the target balance from the fetched row, exactly
as the Python statements order them. -/
def transfer_funds (s : ATMState) (target_acc : String) (amount : Int) :
    ATMState × Except Err Int :=
  match s.current with
  | none => (s, .error .noSession)
  | some sess =>
    match findAcc s.accounts target_acc with
    | none => (s, .error .targetNotFound)
    | some target_row =>
      if amount ≤ 0 then (s, .error .invalidAmount)
      else if sess.balance < amount then (s, .error .insufficientFunds)
      else
        let nb := sess.balance - amount
        let tb := target_row.balance + amount
        ({ accounts := setBalance (setBalance s.accounts sess.account_no nb) target_acc tb
           pool := s.pool
           ledger := s.ledger ++
             [⟨sess.account_no, "Transfer Out", amount, "To " ++ target_acc⟩,
              ⟨target_acc, "Transfer In", amount, "From " ++ sess.account_no⟩]
           current := some { sess with balance := nb } }, .ok nb)

/-- ATM.withdraw_cash_amount (atm.py lines 353-373): the fast-cash
variant of withdrawal, which has no positivity check and records the
entry as Fast Cash. -/
def withdraw_cash_amount (s : ATMState) (amount : Int) : ATMState × Except Err Int :=
  match s.current with
  | none => (s, .error .noSession)
  | some sess =>
    if sess.balance < amount then (s, .error .insufficientFunds)
    else if DAILY_WITHDRAWAL_LIMIT < amount then (s, .error .limitExceeded)
    else if s.pool < amount then (s, .error .poolExhausted)
    else
      let nb := sess.balance - amount
      ({ accounts := setBalance s.accounts sess.account_no nb
         pool := s.pool - amount
         ledger := s.ledger ++ [⟨sess.account_no, "Fast Cash", amount, ""⟩]
         current := some { sess with balance := nb } }, .ok nb)

/-- ATM.fast_cash (atm.py lines 337-351) after a successful integer parse
of the menu choice: amount = FAST_CASH_OPTIONS[choice - 1] with Python
indexing, IndexError reported as invalidOption, then delegation to
withdraw_cash_amount. -/
def fast_cash (s : ATMState) (choice : Int) : ATMState × Except Err Int :=
  match s.current with
  | none => (s, .error .noSession)
  | some _ =>
    match pyGet FAST_CASH_OPTIONS (choice - 1) with
    | none => (s, .error .invalidOption)
    | some amount => withdraw_cash_amount s amount

/-- ATM.load_cash (atm.py lines 395-411) after a successful integer
parse: positivity and capacity checks, then the pool increment alone;
no account row and no transactions row is touched. -/
def load_cash (s : ATMState) (amount : Int) : ATMState × Except Err Int :=
  if amount ≤ 0 then (s, .error .invalidAmount)
  else if ATM_CASH_LIMIT < s.pool + amount then (s, .error .poolCapacityExceeded)
  else ({ s with pool := s.pool + amount }, .ok (s.pool + amount))

/-- Account.change_pin (atm.py lines 159-172): compare the supplied
current PIN with the cached one, require the confirmation to match, then
persist the new PIN and update the in-memory handle; nothing else moves. -/
def change_pin (s : ATMState) (oldPin newPin confirmPin : String) :
    ATMState × Except Err Unit :=
  match s.current with
  | none => (s, .error .noSession)
  | some sess =>
    if oldPin ≠ sess.pin then (s, .error .authenticationFailed)
    else if newPin ≠ confirmPin then (s, .error .pinMismatch)
    else
      ({ s with accounts := setPin s.accounts sess.account_no newPin
                current := some { sess with pin := newPin } }, .ok ())

/-- Outcome of ATM.authenticate as observed by the caller. -/
inductive AuthResult where
  | cardNotFound
  | cardBlocked
  | authenticated
  | exhausted
  deriving DecidableEq, Repr

/-- The PIN loop of ATM.authenticate (atm.py lines 194-208). The row
fetched at lookup time is passed unchanged into every iteration, so each
comparison and each failed_attempts write uses the stale values of that
row, exactly as the Python loop keeps reading account_row. -/
def authLoop (s : ATMState) (accNo : String) (row : AccountRec) :
    List String → ATMState × AuthResult
  | [] => (s, .exhausted)
  | p :: rest =>
    if p = row.pin then
      ({ accounts := setAttempts s.accounts accNo 0
         pool := s.pool
         ledger := s.ledger
         current := some ⟨accNo, row.pin, row.balance⟩ }, .authenticated)
    else
      let s1 : ATMState := { s with accounts := setAttempts s.accounts accNo (row.failed_attempts + 1) }
      if 3 ≤ row.failed_attempts + 1 then
        ({ s1 with accounts := setBlocked s1.accounts accNo }, .exhausted)
      else
        authLoop s1 accNo row rest

/-- ATM.authenticate (atm.py lines 183-208): card lookup, blocked check,
then up to three PIN submissions taken from the supplied list. -/
def authenticate (s : ATMState) (card : String) (pins : List String) :
    ATMState × AuthResult :=
  match findByCard s.accounts card with
  | none => (s, .cardNotFound)
  | some (accNo, row) =>
    if row.blocked then (s, .cardBlocked)
    else authLoop s accNo row (pins.take 3)

/-! Demo fixture matching the sample database population at the bottom of
atm.py (Alice 1001 / card 1234567890 / pin 1111 / 100000, Bob 1002), with
the pool at its initial value ATM_CASH_LIMIT. -/

/-- Sample account Alice from the demo seeding in atm.py. -/
def accA : AccountRec :=
  { name := "Alice", card_no := "1234567890", pin := "1111",
    balance := 100000, blocked := false, failed_attempts := 0 }

/-- Sample account Bob from the demo seeding in atm.py. -/
def accB : AccountRec :=
  { name := "Bob", card_no := "9876543210", pin := "2222",
    balance := 50000, blocked := false, failed_attempts := 0 }

/-- Freshly seeded database, nobody logged in. -/
def demoState : ATMState :=
  { accounts := [("1001", accA), ("1002", accB)], pool := 200000,
    ledger := [], current := none }

/-- The demo database with Alice authenticated, as authenticate would
leave it after a first-try correct PIN. -/
def demoLogged : ATMState :=
  { demoState with current := some ⟨"1001", "1111", 100000⟩ }

/-- The logged-in demo database with the pool at 190000, the capacity
scenario of spec section 8. -/
def demoCapState : ATMState := { demoLogged with pool := 190000 }

/-- The logged-in demo database with the pool partly drained to 130000. -/
def demoMidState : ATMState := { demoLogged with pool := 130000 }

/-- The logged-in demo database with the target account Bob blocked. -/
def demoBlockedTarget : ATMState :=
  { demoLogged with accounts := [("1001", accA), ("1002", { accB with blocked := true })] }

/-! Basic lemmas about the store operations. -/

/-- A row found by account number is a member of the table. -/
theorem findAcc_mem {accs : List (String × AccountRec)} {k : String} {a : AccountRec}
    (h : findAcc accs k = some a) : (k, a) ∈ accs := by
  induction accs with
  | nil => simp [findAcc] at h
  | cons p rest ih =>
    obtain ⟨k', a'⟩ := p
    rw [findAcc] at h
    split at h
    · rename_i heq
      cases h
      subst heq
      exact List.mem_cons_self _ _
    · exact List.mem_cons_of_mem _ (ih h)

/-- A row found by card number is a member of the table. -/
theorem findByCard_mem {accs : List (String × AccountRec)} {c : String}
    {k : String} {a : AccountRec}
    (h : findByCard accs c = some (k, a)) : (k, a) ∈ accs := by
  induction accs with
  | nil => simp [findByCard] at h
  | cons p rest ih =>
    obtain ⟨k', a'⟩ := p
    rw [findByCard] at h
    split at h
    · cases h
      exact List.mem_cons_self _ _
    · exact List.mem_cons_of_mem _ (ih h)

/-- Updating a key rewrites the row that lookup returns for that key. -/
theorem findAcc_updAcc_self {accs : List (String × AccountRec)} {k : String}
    {f : AccountRec → AccountRec} {a : AccountRec}
    (h : findAcc accs k = some a) :
    findAcc (updAcc accs k f) k = some (f a) := by
  induction accs with
  | nil => simp [findAcc] at h
  | cons p rest ih =>
    obtain ⟨k', a'⟩ := p
    by_cases hk : k' = k
    · rw [findAcc, if_pos hk] at h
      cases h
      rw [updAcc, if_pos hk, findAcc, if_pos hk]
    · rw [findAcc, if_neg hk] at h
      rw [updAcc, if_neg hk, findAcc, if_neg hk]
      exact ih h

/-- Updating one key leaves lookups of other keys unchanged. -/
theorem findAcc_updAcc_ne {accs : List (String × AccountRec)} {k k' : String}
    {f : AccountRec → AccountRec} (h : k' ≠ k) :
    findAcc (updAcc accs k f) k' = findAcc accs k' := by
  induction accs with
  | nil => simp [findAcc, updAcc]
  | cons p rest ih =>
    obtain ⟨k0, a0⟩ := p
    by_cases hk : k0 = k
    · have h0 : ¬ k0 = k' := fun he => h (he ▸ hk)
      rw [updAcc, if_pos hk, findAcc, findAcc, if_neg h0, if_neg h0]
      exact ih
    · rw [updAcc, if_neg hk, findAcc, findAcc]
      by_cases hk' : k0 = k'
      · rw [if_pos hk', if_pos hk']
      · rw [if_neg hk', if_neg hk']
        exact ih

/-- If every stored balance satisfies P and the update preserves P on the
balance, every balance after the update satisfies P. -/
theorem allBal_updAcc {k : String} {f : AccountRec → AccountRec} {P : Int → Prop}
    (hf : ∀ a : AccountRec, P a.balance → P (f a).balance) :
    ∀ accs : List (String × AccountRec), (∀ p ∈ accs, P p.2.balance) →
      ∀ p ∈ updAcc accs k f, P p.2.balance := by
  intro accs
  induction accs with
  | nil =>
    intro _ p hp
    simp [updAcc] at hp
  | cons q rest ih =>
    obtain ⟨k0, a0⟩ := q
    intro h p hp
    have hrest : ∀ p ∈ rest, P p.2.balance := fun r hr => h r (List.mem_cons_of_mem _ hr)
    rw [updAcc] at hp
    split at hp
    · rcases List.mem_cons.mp hp with rfl | hp'
      · exact hf _ (h (k0, a0) (List.mem_cons_self _ _))
      · exact ih hrest _ hp'
    · rcases List.mem_cons.mp hp with rfl | hp'
      · exact h (k0, a0) (List.mem_cons_self _ _)
      · exact ih hrest _ hp'

/-- Balances are untouched by a setBalance to a nonnegative value. -/
theorem allBal_setBalance {accs : List (String × AccountRec)} {k : String} {b : Int}
    (h : ∀ p ∈ accs, 0 ≤ p.2.balance) (hb : 0 ≤ b) :
    ∀ p ∈ setBalance accs k b, 0 ≤ p.2.balance :=
  allBal_updAcc (fun _ _ => hb) accs h

/-- Updating the failed-attempt counter moves no balance. -/
theorem allBal_setAttempts {accs : List (String × AccountRec)} {k : String} {n : Int}
    (h : ∀ p ∈ accs, 0 ≤ p.2.balance) :
    ∀ p ∈ setAttempts accs k n, 0 ≤ p.2.balance :=
  allBal_updAcc (f := fun a => { a with failed_attempts := n }) (fun _ ha => ha) accs h

/-- Blocking a card moves no balance. -/
theorem allBal_setBlocked {accs : List (String × AccountRec)} {k : String}
    (h : ∀ p ∈ accs, 0 ≤ p.2.balance) :
    ∀ p ∈ setBlocked accs k, 0 ≤ p.2.balance :=
  allBal_updAcc (f := fun a => { a with blocked := true }) (fun _ ha => ha) accs h

/-- Changing a PIN moves no balance. -/
theorem allBal_setPin {accs : List (String × AccountRec)} {k : String} {p : String}
    (h : ∀ q ∈ accs, 0 ≤ q.2.balance) :
    ∀ q ∈ setPin accs k p, 0 ≤ q.2.balance :=
  allBal_updAcc (f := fun a => { a with pin := p }) (fun _ ha => ha) accs h

/-- Python subscription only ever returns members of the list. -/
theorem pyGet_mem {l : List Int} {i : Int} {a : Int}
    (h : pyGet l i = some a) : a ∈ l := by
  rw [pyGet] at h
  split at h
  · exact List.get?_mem h
  · split at h
    · exact List.get?_mem h
    · cases h

/-- Every preset fast-cash amount is positive. -/
theorem fastOptions_pos {a : Int} (h : a ∈ FAST_CASH_OPTIONS) : 0 < a := by
  simp [FAST_CASH_OPTIONS] at h
  rcases h with rfl | rfl | rfl <;> norm_num

/-! The operation alphabet for reachability: the caller actions of spec
section 2 (authenticate to open a session, menu exit to drop it, and the
five money-moving or cash-loading operations). -/

/-- One caller action against the engine. -/
inductive Op where
  | login (card : String) (pins : List String)
  | logout
  | withdraw (amount : Int)
  | deposit (amount : Int)
  | transfer (target : String) (amount : Int)
  | fastCash (choice : Int)
  | loadCash (amount : Int)
  deriving DecidableEq, Repr

/-- Apply one caller action to the state. -/
def stepOp (s : ATMState) : Op → ATMState
  | .login card pins => (authenticate s card pins).1
  | .logout => { s with current := none }
  | .withdraw a => (withdraw_cash s a).1
  | .deposit a => (deposit_cash s a).1
  | .transfer t a => (transfer_funds s t a).1
  | .fastCash c => (fast_cash s c).1
  | .loadCash a => (load_cash s a).1

/-- Apply a whole sequence of caller actions. -/
def runOps (s : ATMState) (ops : List Op) : ATMState := ops.foldl stepOp s

/-- The safety invariant of spec sections 3 and 8: every stored balance
is nonnegative, the pool stays within capacity, and the cached session
balance is nonnegative (it is copied from a stored balance at login). -/
def Inv (s : ATMState) : Prop :=
  (∀ p ∈ s.accounts, 0 ≤ p.2.balance) ∧
  0 ≤ s.pool ∧ s.pool ≤ ATM_CASH_LIMIT ∧
  (∀ sess : Session, s.current = some sess → 0 ≤ sess.balance)

theorem inv_withdraw_cash (s : ATMState) (a : Int) (h : Inv s) :
    Inv (withdraw_cash s a).1 := by
  obtain ⟨hbal, hp0, hp1, hsess⟩ := h
  cases hcur : s.current with
  | none =>
    simp only [withdraw_cash, hcur]
    exact ⟨hbal, hp0, hp1, hsess⟩
  | some sess =>
    have hs0 : 0 ≤ sess.balance := hsess sess hcur
    simp only [withdraw_cash, hcur]
    split_ifs with h1 h2 h3 h4
    · exact ⟨hbal, hp0, hp1, hsess⟩
    · exact ⟨hbal, hp0, hp1, hsess⟩
    · exact ⟨hbal, hp0, hp1, hsess⟩
    · exact ⟨hbal, hp0, hp1, hsess⟩
    · refine ⟨?_, ?_, ?_, ?_⟩
      · exact allBal_setBalance hbal (by omega)
      · show 0 ≤ s.pool - a
        omega
      · show s.pool - a ≤ ATM_CASH_LIMIT
        omega
      · intro s' hs'
        injection hs' with he
        rw [← he]
        show 0 ≤ sess.balance - a
        omega

theorem inv_deposit_cash (s : ATMState) (a : Int) (h : Inv s) :
    Inv (deposit_cash s a).1 := by
  obtain ⟨hbal, hp0, hp1, hsess⟩ := h
  cases hcur : s.current with
  | none =>
    simp only [deposit_cash, hcur]
    exact ⟨hbal, hp0, hp1, hsess⟩
  | some sess =>
    have hs0 : 0 ≤ sess.balance := hsess sess hcur
    simp only [deposit_cash, hcur]
    split_ifs with h1 h2
    · exact ⟨hbal, hp0, hp1, hsess⟩
    · exact ⟨hbal, hp0, hp1, hsess⟩
    · refine ⟨?_, ?_, ?_, ?_⟩
      · exact allBal_setBalance hbal (by omega)
      · show 0 ≤ s.pool + a
        omega
      · show s.pool + a ≤ ATM_CASH_LIMIT
        omega
      · intro s' hs'
        injection hs' with he
        rw [← he]
        show 0 ≤ sess.balance + a
        omega

theorem inv_transfer_funds (s : ATMState) (tgt : String) (a : Int) (h : Inv s) :
    Inv (transfer_funds s tgt a).1 := by
  obtain ⟨hbal, hp0, hp1, hsess⟩ := h
  cases hcur : s.current with
  | none =>
    simp only [transfer_funds, hcur]
    exact ⟨hbal, hp0, hp1, hsess⟩
  | some sess =>
    have hs0 : 0 ≤ sess.balance := hsess sess hcur
    cases htr : findAcc s.accounts tgt with
    | none =>
      simp only [transfer_funds, hcur, htr]
      exact ⟨hbal, hp0, hp1, hsess⟩
    | some trow =>
      have htr0 : 0 ≤ trow.balance := hbal _ (findAcc_mem htr)
      simp only [transfer_funds, hcur, htr]
      split_ifs with h1 h2
      · exact ⟨hbal, hp0, hp1, hsess⟩
      · exact ⟨hbal, hp0, hp1, hsess⟩
      · refine ⟨?_, hp0, hp1, ?_⟩
        · exact allBal_setBalance (allBal_setBalance hbal (by omega)) (by omega)
        · intro s' hs'
          injection hs' with he
          rw [← he]
          show 0 ≤ sess.balance - a
          omega

theorem inv_withdraw_cash_amount (s : ATMState) (a : Int) (ha : 0 ≤ a) (h : Inv s) :
    Inv (withdraw_cash_amount s a).1 := by
  obtain ⟨hbal, hp0, hp1, hsess⟩ := h
  cases hcur : s.current with
  | none =>
    simp only [withdraw_cash_amount, hcur]
    exact ⟨hbal, hp0, hp1, hsess⟩
  | some sess =>
    have hs0 : 0 ≤ sess.balance := hsess sess hcur
    simp only [withdraw_cash_amount, hcur]
    split_ifs with h1 h2 h3
    · exact ⟨hbal, hp0, hp1, hsess⟩
    · exact ⟨hbal, hp0, hp1, hsess⟩
    · exact ⟨hbal, hp0, hp1, hsess⟩
    · refine ⟨?_, ?_, ?_, ?_⟩
      · exact allBal_setBalance hbal (by omega)
      · show 0 ≤ s.pool - a
        omega
      · show s.pool - a ≤ ATM_CASH_LIMIT
        omega
      · intro s' hs'
        injection hs' with he
        rw [← he]
        show 0 ≤ sess.balance - a
        omega

theorem inv_fast_cash (s : ATMState) (c : Int) (h : Inv s) :
    Inv (fast_cash s c).1 := by
  cases hcur : s.current with
  | none =>
    simp only [fast_cash, hcur]
    exact h
  | some sess =>
    cases hg : pyGet FAST_CASH_OPTIONS (c - 1) with
    | none =>
      simp only [fast_cash, hcur, hg]
      exact h
    | some amt =>
      simp only [fast_cash, hcur, hg]
      exact inv_withdraw_cash_amount s amt (le_of_lt (fastOptions_pos (pyGet_mem hg))) h

theorem inv_load_cash (s : ATMState) (a : Int) (h : Inv s) :
    Inv (load_cash s a).1 := by
  obtain ⟨hbal, hp0, hp1, hsess⟩ := h
  rw [load_cash]
  split_ifs with h1 h2
  · exact ⟨hbal, hp0, hp1, hsess⟩
  · exact ⟨hbal, hp0, hp1, hsess⟩
  · refine ⟨hbal, ?_, ?_, hsess⟩
    · show 0 ≤ s.pool + a
      omega
    · show s.pool + a ≤ ATM_CASH_LIMIT
      omega

theorem inv_authLoop (accNo : String) (row : AccountRec) (hrow : 0 ≤ row.balance) :
    ∀ (pins : List String) (s : ATMState), Inv s → Inv (authLoop s accNo row pins).1 := by
  intro pins
  induction pins with
  | nil =>
    intro s h
    exact h
  | cons p rest ih =>
    intro s h
    obtain ⟨hbal, hp0, hp1, hsess⟩ := h
    rw [authLoop]
    split_ifs with h1 h2
    · refine ⟨allBal_setAttempts hbal, hp0, hp1, ?_⟩
      intro s' hs'
      injection hs' with he
      rw [← he]
      exact hrow
    · exact ⟨allBal_setBlocked (allBal_setAttempts hbal), hp0, hp1, hsess⟩
    · exact ih _ ⟨allBal_setAttempts hbal, hp0, hp1, hsess⟩

theorem inv_authenticate (s : ATMState) (card : String) (pins : List String)
    (h : Inv s) : Inv (authenticate s card pins).1 := by
  cases hfc : findByCard s.accounts card with
  | none =>
    simp only [authenticate, hfc]
    exact h
  | some ka =>
    obtain ⟨accNo, row⟩ := ka
    simp only [authenticate, hfc]
    split_ifs with hb
    · exact h
    · exact inv_authLoop accNo row (h.1 _ (findByCard_mem hfc)) _ s h

theorem inv_stepOp (s : ATMState) (op : Op) (h : Inv s) : Inv (stepOp s op) := by
  cases op with
  | login card pins => exact inv_authenticate s card pins h
  | logout => exact ⟨h.1, h.2.1, h.2.2.1, fun s' hs' => by cases hs'⟩
  | withdraw a => exact inv_withdraw_cash s a h
  | deposit a => exact inv_deposit_cash s a h
  | transfer t a => exact inv_transfer_funds s t a h
  | fastCash c => exact inv_fast_cash s c h
  | loadCash a => exact inv_load_cash s a h

theorem inv_runOps : ∀ (ops : List Op) (s : ATMState), Inv s → Inv (runOps s ops) := by
  intro ops
  induction ops with
  | nil =>
    intro s h
    exact h
  | cons op rest ih =>
    intro s h
    exact ih _ (inv_stepOp s op h)

/-! Claim theorems. -/

/-- C3: for every sequence of engine operations (withdraw, deposit,
transfer, fast cash, admin cash load, together with the logins and
logouts that drive them) starting from a state with all balances
nonnegative, the pool within capacity and no session open, every account
balance stays nonnegative and the pool total stays within the interval
from 0 to CASH_CAPACITY after each operation. -/
theorem engine_preserves_invariants (s : ATMState) (ops : List Op)
    (hbal : ∀ p ∈ s.accounts, 0 ≤ p.2.balance)
    (hp0 : 0 ≤ s.pool) (hp1 : s.pool ≤ ATM_CASH_LIMIT)
    (hc : s.current = none) :
    (∀ p ∈ (runOps s ops).accounts, 0 ≤ p.2.balance) ∧
    0 ≤ (runOps s ops).pool ∧ (runOps s ops).pool ≤ ATM_CASH_LIMIT := by
  have hInv : Inv s := ⟨hbal, hp0, hp1, fun sess hs => by rw [hc] at hs; cases hs⟩
  obtain ⟨h1, h2, h3, -⟩ := inv_runOps ops s hInv
  exact ⟨h1, h2, h3⟩

/-- A concrete operation sequence exercising every operation kind. -/
def demoOps : List Op :=
  [.login "1234567890" ["1111"], .withdraw 500, .deposit 200,
   .transfer "1002" 100, .fastCash 1, .logout, .loadCash 300]

/-- Witness for C3 at the demo database and a sequence that uses every
operation kind. -/
theorem engine_preserves_invariants_witness :
    ((∀ p ∈ demoState.accounts, 0 ≤ p.2.balance) ∧
      0 ≤ demoState.pool ∧ demoState.pool ≤ ATM_CASH_LIMIT ∧ demoState.current = none) ∧
    ((∀ p ∈ (runOps demoState demoOps).accounts, 0 ≤ p.2.balance) ∧
      0 ≤ (runOps demoState demoOps).pool ∧
      (runOps demoState demoOps).pool ≤ ATM_CASH_LIMIT) :=
  ⟨⟨by decide, by decide, by decide, rfl⟩,
    engine_preserves_invariants demoState demoOps (by decide) (by decide) (by decide) rfl⟩

/-- C4: withdraw_cash applies its validations in source order
(invalidAmount, then insufficientFunds, then limitExceeded, then
poolExhausted), the first failing check determines the error and the
state is returned unchanged on every failure; on success the account
balance and the pool both drop by the amount, a single Withdraw ledger
entry is appended and the new balance is returned. The account row,
session and stored balance are tied together by the hypotheses. -/
theorem withdraw_cash_spec (s : ATMState) (sess : Session) (acc : AccountRec) (a : Int)
    (hc : s.current = some sess)
    (hacc : findAcc s.accounts sess.account_no = some acc)
    (hsync : acc.balance = sess.balance) :
    (a ≤ 0 → withdraw_cash s a = (s, .error .invalidAmount)) ∧
    (0 < a → sess.balance < a → withdraw_cash s a = (s, .error .insufficientFunds)) ∧
    (0 < a → a ≤ sess.balance → DAILY_WITHDRAWAL_LIMIT < a →
      withdraw_cash s a = (s, .error .limitExceeded)) ∧
    (0 < a → a ≤ sess.balance → a ≤ DAILY_WITHDRAWAL_LIMIT → s.pool < a →
      withdraw_cash s a = (s, .error .poolExhausted)) ∧
    (0 < a → a ≤ sess.balance → a ≤ DAILY_WITHDRAWAL_LIMIT → a ≤ s.pool →
      (withdraw_cash s a).2 = .ok (sess.balance - a) ∧
      findAcc (withdraw_cash s a).1.accounts sess.account_no =
        some { acc with balance := acc.balance - a } ∧
      (withdraw_cash s a).1.pool = s.pool - a ∧
      (withdraw_cash s a).1.ledger = s.ledger ++ [⟨sess.account_no, "Withdraw", a, ""⟩]) := by
  refine ⟨fun h1 => ?_, fun h1 h2 => ?_, fun h1 h2 h3 => ?_, fun h1 h2 h3 h4 => ?_,
    fun h1 h2 h3 h4 => ?_⟩
  · simp only [withdraw_cash, hc]
    rw [if_pos h1]
  · simp only [withdraw_cash, hc]
    rw [if_neg (not_le.mpr h1), if_pos h2]
  · simp only [withdraw_cash, hc]
    rw [if_neg (not_le.mpr h1), if_neg (not_lt.mpr h2), if_pos h3]
  · simp only [withdraw_cash, hc]
    rw [if_neg (not_le.mpr h1), if_neg (not_lt.mpr h2), if_neg (not_lt.mpr h3), if_pos h4]
  · have hres : withdraw_cash s a =
        ({ accounts := setBalance s.accounts sess.account_no (sess.balance - a)
           pool := s.pool - a
           ledger := s.ledger ++ [⟨sess.account_no, "Withdraw", a, ""⟩]
           current := some { sess with balance := sess.balance - a } },
         .ok (sess.balance - a)) := by
      simp only [withdraw_cash, hc]
      rw [if_neg (not_le.mpr h1), if_neg (not_lt.mpr h2), if_neg (not_lt.mpr h3),
        if_neg (not_lt.mpr h4)]
    rw [hres]
    refine ⟨rfl, ?_, rfl, rfl⟩
    have hupd := findAcc_updAcc_self (f := fun x => { x with balance := sess.balance - a }) hacc
    rw [setBalance, hupd, hsync]

/-- Witness for C4 at the demo database: Alice withdraws 500. -/
theorem withdraw_cash_spec_witness :
    (demoLogged.current = some ⟨"1001", "1111", 100000⟩ ∧
      findAcc demoLogged.accounts "1001" = some accA ∧
      accA.balance = (100000 : Int)) ∧
    ((withdraw_cash demoLogged 500).2 = .ok (100000 - 500) ∧
      findAcc (withdraw_cash demoLogged 500).1.accounts "1001" =
        some { accA with balance := accA.balance - 500 } ∧
      (withdraw_cash demoLogged 500).1.pool = demoLogged.pool - 500 ∧
      (withdraw_cash demoLogged 500).1.ledger =
        demoLogged.ledger ++ [⟨"1001", "Withdraw", 500, ""⟩]) :=
  ⟨⟨rfl, by decide, rfl⟩,
    (withdraw_cash_spec demoLogged ⟨"1001", "1111", 100000⟩ accA 500 rfl (by decide) rfl).2.2.2.2
      (by decide) (by decide) (by decide) (by decide)⟩

/-- C6: deposit_cash fails with invalidAmount on a nonpositive amount and
with poolCapacityExceeded when the pool plus the amount would pass
ATM_CASH_LIMIT, each time returning the state unchanged; on success the
balance and the pool both grow by the amount, a Deposit ledger entry is
appended and the new balance is returned. No daily-limit condition
appears anywhere: the success branch holds for amounts of any size. -/
theorem deposit_cash_spec (s : ATMState) (sess : Session) (acc : AccountRec) (a : Int)
    (hc : s.current = some sess)
    (hacc : findAcc s.accounts sess.account_no = some acc)
    (hsync : acc.balance = sess.balance) :
    (a ≤ 0 → deposit_cash s a = (s, .error .invalidAmount)) ∧
    (0 < a → ATM_CASH_LIMIT < s.pool + a →
      deposit_cash s a = (s, .error .poolCapacityExceeded)) ∧
    (0 < a → s.pool + a ≤ ATM_CASH_LIMIT →
      (deposit_cash s a).2 = .ok (sess.balance + a) ∧
      findAcc (deposit_cash s a).1.accounts sess.account_no =
        some { acc with balance := acc.balance + a } ∧
      (deposit_cash s a).1.pool = s.pool + a ∧
      (deposit_cash s a).1.ledger = s.ledger ++ [⟨sess.account_no, "Deposit", a, ""⟩]) := by
  refine ⟨fun h1 => ?_, fun h1 h2 => ?_, fun h1 h2 => ?_⟩
  · simp only [deposit_cash, hc]
    rw [if_pos h1]
  · simp only [deposit_cash, hc]
    rw [if_neg (not_le.mpr h1), if_pos h2]
  · have hres : deposit_cash s a =
        ({ accounts := setBalance s.accounts sess.account_no (sess.balance + a)
           pool := s.pool + a
           ledger := s.ledger ++ [⟨sess.account_no, "Deposit", a, ""⟩]
           current := some { sess with balance := sess.balance + a } },
         .ok (sess.balance + a)) := by
      simp only [deposit_cash, hc]
      rw [if_neg (not_le.mpr h1), if_neg (not_lt.mpr h2)]
    rw [hres]
    refine ⟨rfl, ?_, rfl, rfl⟩
    have hupd := findAcc_updAcc_self (f := fun x => { x with balance := sess.balance + a }) hacc
    rw [setBalance, hupd, hsync]

/-- Witness for C6: the capacity-exceeded scenario of spec section 8
(pool at 190000, deposit 60000 fails with no state change) and a
successful deposit of 60000 at a lower pool level, a deposit above
DAILY_WITHDRAWAL_LIMIT that the engine accepts. -/
theorem deposit_cash_spec_witness :
    (demoCapState.current = some ⟨"1001", "1111", 100000⟩ ∧
      findAcc demoCapState.accounts "1001" = some accA ∧
      accA.balance = (100000 : Int)) ∧
    deposit_cash demoCapState 60000 = (demoCapState, .error .poolCapacityExceeded) ∧
    (deposit_cash demoMidState 60000).2 = .ok (100000 + 60000) :=
  ⟨⟨rfl, by decide, rfl⟩,
    (deposit_cash_spec demoCapState ⟨"1001", "1111", 100000⟩ accA 60000 rfl (by decide)
        rfl).2.1 (by decide) (by decide),
    ((deposit_cash_spec demoMidState ⟨"1001", "1111", 100000⟩ accA 60000 rfl (by decide)
        rfl).2.2 (by decide) (by decide)).1⟩

/-- C9: a successful admin load_cash adds the amount to the pool and
changes nothing else: the account table, the ledger and the session of
the result are those of the input state. -/
theorem load_cash_spec (s : ATMState) (a : Int)
    (h1 : 0 < a) (h2 : s.pool + a ≤ ATM_CASH_LIMIT) :
    load_cash s a = ({ s with pool := s.pool + a }, .ok (s.pool + a)) ∧
    (load_cash s a).1.accounts = s.accounts ∧
    (load_cash s a).1.ledger = s.ledger ∧
    (load_cash s a).1.current = s.current := by
  have hres : load_cash s a = ({ s with pool := s.pool + a }, .ok (s.pool + a)) := by
    rw [load_cash, if_neg (not_le.mpr h1), if_neg (not_lt.mpr h2)]
  rw [hres]
  exact ⟨rfl, rfl, rfl, rfl⟩

/-- Witness for C9: loading 300 into the demo pool at 150000. -/
theorem load_cash_spec_witness :
    ((0 : Int) < 300 ∧ demoMidState.pool + 300 ≤ ATM_CASH_LIMIT) ∧
    load_cash demoMidState 300 =
      ({ demoMidState with pool := demoMidState.pool + 300 },
        .ok (demoMidState.pool + 300)) :=
  ⟨⟨by decide, by decide⟩,
    (load_cash_spec demoMidState 300 (by decide) (by decide)).1⟩

/-- C8: change_pin mutates nothing when the supplied current PIN is
wrong (authenticationFailed) or the confirmation differs from the new
PIN (pinMismatch); on success it rewrites exactly the pin field of the
stored row (so the failed-attempt counter, the blocked flag and the
balance are untouched), updates the in-memory handle, and leaves the
ledger and the pool alone. -/
theorem change_pin_spec (s : ATMState) (sess : Session) (acc : AccountRec)
    (oldPin newPin confirmPin : String)
    (hc : s.current = some sess)
    (hacc : findAcc s.accounts sess.account_no = some acc) :
    (oldPin ≠ sess.pin →
      change_pin s oldPin newPin confirmPin = (s, .error .authenticationFailed)) ∧
    (oldPin = sess.pin → newPin ≠ confirmPin →
      change_pin s oldPin newPin confirmPin = (s, .error .pinMismatch)) ∧
    (oldPin = sess.pin → newPin = confirmPin →
      (change_pin s oldPin newPin confirmPin).2 = .ok () ∧
      findAcc (change_pin s oldPin newPin confirmPin).1.accounts sess.account_no =
        some { acc with pin := newPin } ∧
      (change_pin s oldPin newPin confirmPin).1.ledger = s.ledger ∧
      (change_pin s oldPin newPin confirmPin).1.pool = s.pool ∧
      (change_pin s oldPin newPin confirmPin).1.current =
        some { sess with pin := newPin }) := by
  refine ⟨fun h1 => ?_, fun h1 h2 => ?_, fun h1 h2 => ?_⟩
  · simp only [change_pin, hc]
    rw [if_pos h1]
  · simp only [change_pin, hc]
    rw [if_neg (not_not_intro h1), if_pos h2]
  · have hres : change_pin s oldPin newPin confirmPin =
        ({ s with accounts := setPin s.accounts sess.account_no newPin
                  current := some { sess with pin := newPin } }, .ok ()) := by
      simp only [change_pin, hc]
      rw [if_neg (not_not_intro h1), if_neg (not_not_intro h2)]
    rw [hres]
    refine ⟨rfl, ?_, rfl, rfl, rfl⟩
    have hupd := findAcc_updAcc_self (f := fun x => { x with pin := newPin }) hacc
    rw [setPin, hupd]

/-- Witness for C8: Alice changes her PIN from 1111 to 9999. -/
theorem change_pin_spec_witness :
    (demoLogged.current = some ⟨"1001", "1111", 100000⟩ ∧
      findAcc demoLogged.accounts "1001" = some accA ∧
      "1111" = (⟨"1001", "1111", 100000⟩ : Session).pin ∧ "9999" = "9999") ∧
    ((change_pin demoLogged "1111" "9999" "9999").2 = .ok () ∧
      findAcc (change_pin demoLogged "1111" "9999" "9999").1.accounts "1001" =
        some { accA with pin := "9999" } ∧
      (change_pin demoLogged "1111" "9999" "9999").1.ledger = demoLogged.ledger ∧
      (change_pin demoLogged "1111" "9999" "9999").1.pool = demoLogged.pool ∧
      (change_pin demoLogged "1111" "9999" "9999").1.current =
        some { (⟨"1001", "1111", 100000⟩ : Session) with pin := "9999" }) :=
  ⟨⟨rfl, by decide, rfl, rfl⟩,
    (change_pin_spec demoLogged ⟨"1001", "1111", 100000⟩ accA "1111" "9999" "9999" rfl
      (by decide)).2.2 rfl rfl⟩

/-- C7: the withdrawal limit is per call, not cumulative per day. After
a successful withdrawal of exactly DAILY_WITHDRAWAL_LIMIT, a second
withdrawal of any positive amount is decided purely by the remaining
session balance, the same per-call limit and the remaining pool, and for
amounts within the per-call limit it never reports limitExceeded. -/
theorem withdraw_limit_per_call (s : ATMState) (sess : Session)
    (hc : s.current = some sess)
    (hb : DAILY_WITHDRAWAL_LIMIT ≤ sess.balance)
    (hp : DAILY_WITHDRAWAL_LIMIT ≤ s.pool)
    (a : Int) (ha : 0 < a) :
    (withdraw_cash s DAILY_WITHDRAWAL_LIMIT).2 =
      .ok (sess.balance - DAILY_WITHDRAWAL_LIMIT) ∧
    (withdraw_cash (withdraw_cash s DAILY_WITHDRAWAL_LIMIT).1 a).2 =
      (if sess.balance - DAILY_WITHDRAWAL_LIMIT < a then .error .insufficientFunds
       else if DAILY_WITHDRAWAL_LIMIT < a then .error .limitExceeded
       else if s.pool - DAILY_WITHDRAWAL_LIMIT < a then .error .poolExhausted
       else .ok (sess.balance - DAILY_WITHDRAWAL_LIMIT - a)) ∧
    (a ≤ DAILY_WITHDRAWAL_LIMIT →
      (withdraw_cash (withdraw_cash s DAILY_WITHDRAWAL_LIMIT).1 a).2 ≠
        .error .limitExceeded) := by
  have hL : (0 : Int) < DAILY_WITHDRAWAL_LIMIT := by norm_num [DAILY_WITHDRAWAL_LIMIT]
  have hres : withdraw_cash s DAILY_WITHDRAWAL_LIMIT =
      ({ accounts := setBalance s.accounts sess.account_no
           (sess.balance - DAILY_WITHDRAWAL_LIMIT)
         pool := s.pool - DAILY_WITHDRAWAL_LIMIT
         ledger := s.ledger ++ [⟨sess.account_no, "Withdraw", DAILY_WITHDRAWAL_LIMIT, ""⟩]
         current := some { sess with balance := sess.balance - DAILY_WITHDRAWAL_LIMIT } },
       .ok (sess.balance - DAILY_WITHDRAWAL_LIMIT)) := by
    simp only [withdraw_cash, hc]
    rw [if_neg (not_le.mpr hL), if_neg (not_lt.mpr hb), if_neg (lt_irrefl _),
      if_neg (not_lt.mpr hp)]
  have hchar : (withdraw_cash (withdraw_cash s DAILY_WITHDRAWAL_LIMIT).1 a).2 =
      (if sess.balance - DAILY_WITHDRAWAL_LIMIT < a then .error .insufficientFunds
       else if DAILY_WITHDRAWAL_LIMIT < a then .error .limitExceeded
       else if s.pool - DAILY_WITHDRAWAL_LIMIT < a then .error .poolExhausted
       else .ok (sess.balance - DAILY_WITHDRAWAL_LIMIT - a)) := by
    rw [hres]
    simp only [withdraw_cash]
    rw [if_neg (not_le.mpr ha)]
    by_cases h1 : sess.balance - DAILY_WITHDRAWAL_LIMIT < a
    · rw [if_pos h1, if_pos h1]
    · rw [if_neg h1, if_neg h1]
      by_cases h2 : DAILY_WITHDRAWAL_LIMIT < a
      · rw [if_pos h2, if_pos h2]
      · rw [if_neg h2, if_neg h2]
        by_cases h3 : s.pool - DAILY_WITHDRAWAL_LIMIT < a
        · rw [if_pos h3, if_pos h3]
        · rw [if_neg h3, if_neg h3]
  refine ⟨by rw [hres], hchar, fun hle => ?_⟩
  rw [hchar]
  split_ifs with h1 h2 h3
  · simp
  · exact absurd h2 (not_lt.mpr hle)
  · simp
  · simp

/-- Witness for C7 at the scenario of spec section 8: Alice holds
100000, the pool holds 200000, the first withdrawal takes the full
50000 limit and a second withdrawal of 1 is not rejected by the limit. -/
theorem withdraw_limit_per_call_witness :
    (demoLogged.current = some ⟨"1001", "1111", 100000⟩ ∧
      DAILY_WITHDRAWAL_LIMIT ≤ (100000 : Int) ∧
      DAILY_WITHDRAWAL_LIMIT ≤ demoLogged.pool ∧ (0 : Int) < 1 ∧
      (1 : Int) ≤ DAILY_WITHDRAWAL_LIMIT) ∧
    (withdraw_cash (withdraw_cash demoLogged DAILY_WITHDRAWAL_LIMIT).1 1).2 ≠
      .error .limitExceeded :=
  ⟨⟨rfl, by decide, by decide, by decide, by decide⟩,
    (withdraw_limit_per_call demoLogged ⟨"1001", "1111", 100000⟩ rfl (by decide) (by decide)
      1 (by decide)).2.2 (by decide)⟩

/-- C10: transfer_funds never reads the blocked flag of the target row:
for any existing target account, with no assumption on its blocked flag,
a transfer of a positive amount within the session balance succeeds and
the stored target balance grows by exactly that amount. -/
theorem transfer_ignores_target_blocked (s : ATMState) (sess : Session)
    (trow : AccountRec) (tgt : String) (a : Int)
    (hc : s.current = some sess)
    (ht : findAcc s.accounts tgt = some trow)
    (ha : 0 < a) (hb : a ≤ sess.balance) :
    (transfer_funds s tgt a).2 = .ok (sess.balance - a) ∧
    ∃ r, findAcc (transfer_funds s tgt a).1.accounts tgt = some r ∧
      r.balance = trow.balance + a := by
  have hres : transfer_funds s tgt a =
      ({ accounts := setBalance (setBalance s.accounts sess.account_no (sess.balance - a))
           tgt (trow.balance + a)
         pool := s.pool
         ledger := s.ledger ++
           [⟨sess.account_no, "Transfer Out", a, "To " ++ tgt⟩,
            ⟨tgt, "Transfer In", a, "From " ++ sess.account_no⟩]
         current := some { sess with balance := sess.balance - a } },
       .ok (sess.balance - a)) := by
    simp only [transfer_funds, hc, ht]
    rw [if_neg (not_le.mpr ha), if_neg (not_lt.mpr hb)]
  rw [hres]
  refine ⟨rfl, ?_⟩
  obtain ⟨a1, ha1⟩ :
      ∃ a1, findAcc (setBalance s.accounts sess.account_no (sess.balance - a)) tgt =
        some a1 := by
    by_cases he : tgt = sess.account_no
    · rw [he, setBalance]
      exact ⟨_, findAcc_updAcc_self (he ▸ ht)⟩
    · rw [setBalance, findAcc_updAcc_ne he, ht]
      exact ⟨trow, rfl⟩
  refine ⟨{ a1 with balance := trow.balance + a }, ?_, rfl⟩
  rw [setBalance]
  exact findAcc_updAcc_self ha1

/-- Witness for C10: Alice transfers 100 to Bob whose card is blocked;
the transfer succeeds and the stored balance of Bob grows by 100. -/
theorem transfer_ignores_target_blocked_witness :
    (demoBlockedTarget.current = some ⟨"1001", "1111", 100000⟩ ∧
      findAcc demoBlockedTarget.accounts "1002" = some { accB with blocked := true } ∧
      (0 : Int) < 100 ∧ (100 : Int) ≤ 100000 ∧
      { accB with blocked := true }.blocked = true) ∧
    ((transfer_funds demoBlockedTarget "1002" 100).2 = .ok (100000 - 100) ∧
      ∃ r, findAcc (transfer_funds demoBlockedTarget "1002" 100).1.accounts "1002" =
        some r ∧ r.balance = { accB with blocked := true }.balance + 100) :=
  ⟨⟨rfl, by decide, by decide, by decide, rfl⟩,
    transfer_ignores_target_blocked demoBlockedTarget ⟨"1001", "1111", 100000⟩
      { accB with blocked := true } "1002" 100 rfl (by decide) (by decide) (by decide)⟩

/-- C1, failing input: the claim says three consecutive wrong PINs on an
unblocked account always leave blocked true with the counter stepped by
one per mismatch. On the fresh demo account the code instead rewrites
failed_attempts to the same stale value 1 on every mismatch, ends the
session exhausted, and never blocks the card: blocked stays false and
the persisted counter ends at 1, not 3. -/
theorem authenticate_three_wrong_pins_no_block :
    (authenticate demoState "1234567890" ["0000", "0000", "0000"]).2 = .exhausted ∧
    (findAcc (authenticate demoState "1234567890" ["0000", "0000", "0000"]).1.accounts
        "1001").map AccountRec.blocked = some false ∧
    (findAcc (authenticate demoState "1234567890" ["0000", "0000", "0000"]).1.accounts
        "1001").map AccountRec.failed_attempts = some 1 := by
  decide

/-- C2, failing input: a transfer whose target account number is the
source account itself. The target row is read before the debit is
written and the credit then overwrites the debit, so the stored balance
ends at 100100 after a self-transfer of 100 from a balance of 100000:
the balance sum grows by the amount instead of being conserved (the
reported new balance, 99900, does not even match the stored row). -/
theorem transfer_self_creates_money :
    (transfer_funds demoLogged "1001" 100).2 = .ok 99900 ∧
    (findAcc demoLogged.accounts "1001").map AccountRec.balance = some 100000 ∧
    (findAcc (transfer_funds demoLogged "1001" 100).1.accounts "1001").map
      AccountRec.balance = some 100100 ∧
    (transfer_funds demoLogged "1001" 100).1.pool = demoLogged.pool ∧
    (findAcc (transfer_funds demoLogged "1001" 100).1.accounts "1001").map
        AccountRec.balance ≠
      (findAcc demoLogged.accounts "1001").map AccountRec.balance :=
  ⟨rfl, rfl, rfl, rfl, by decide⟩

/-- C5, failing input: fast-cash menu selection 0, which lies outside
the displayed options 1 to 3. The claim says it must fail with
invalidOption and change nothing; through Python negative indexing
(0 - 1 = -1 picks the last preset) the code instead dispenses 5000,
debits the balance, drains the pool and appends a Fast Cash ledger
entry. -/
theorem fast_cash_option_zero_dispenses :
    (fast_cash demoLogged 0).2 = .ok 95000 ∧
    (findAcc (fast_cash demoLogged 0).1.accounts "1001").map AccountRec.balance =
      some 95000 ∧
    (fast_cash demoLogged 0).1.pool = 195000 ∧
    (fast_cash demoLogged 0).1.ledger = [⟨"1001", "Fast Cash", 5000, ""⟩] :=
  ⟨rfl, rfl, rfl, rfl⟩

end ATMProject
